import Mathlib

/-!
Verification development for the Scribd-to-PDF converter (`main.py`).

The embedding below translates the source file:
* `convert_scribd_link` (lines 58-63): `re.search(r'https://www\.scribd\.com/document/(\d+)/', url)`
  is modelled by a leftmost-match scan (`searchPat`) whose per-position matcher
  (`matchAfterPrefix`) mirrors the regex: the literal prefix, a maximal nonempty
  run of digits (`\d+` is greedy, and backtracking cannot help because any
  shorter run is still followed by a digit, not `/`), then a literal `/`.
* the Streamlit click handler (lines 178-208): `generatePdfInvoked` models Python
  truthiness of `embed_url` guarding the call to `generate_pdf`, and `fileName`
  models `re.search(r'embeds/(\d+)/', embed_url).group(1)` (line 193); `none`
  stands for the `AttributeError` crash the source would raise when the search fails.
* `generate_pdf` (lines 85-166): an execution model over an environment of
  external outcomes (driver availability, navigation, per-element scrolling,
  cleanup script, CDP `Page.printToPDF` response), producing the returned value
  together with a trace of session events; the `try`/`finally` of the source is
  the unconditional `quit` event appended to every created-session path.
* the cleanup script (lines 114-150): a DOM forest model with each removal /
  class-reset / id-removal / text-fallback / style-injection step translated in
  source order, including the live-`HTMLCollection` skip behaviour of the
  `document_scroller` loop (clearing an element's class removes it from the
  live collection, so only every other match is reset) and the static-NodeList,
  document-order semantics of the text-content fallback.

Python's `\d` matches Unicode digits; the model uses ASCII `Char.isDigit`,
which agrees on every string appearing in the claims.
-/

namespace Scribd

/-! ### URL normalizer (`convert_scribd_link`, main.py lines 58-63) -/

/-- The literal part of the regex `https://www\.scribd\.com/document/(\d+)/`. -/
def docPrefix : String := "https://www.scribd.com/document/"

/-- Attempt to match `<prefix>(\d+)/` at the start of `s`, returning the digit
group.  `\d+` is greedy; backtracking to a shorter digit run cannot succeed
because the following character would then be a digit, not `/`, so the regex
matches here exactly when the maximal digit run is nonempty and followed by `/`. -/
def matchAfterPrefix (p : List Char) (s : List Char) : Option (List Char) :=
  if p.isPrefixOf s then
    let t := s.drop p.length
    let ds := t.takeWhile Char.isDigit
    if ds.isEmpty then none
    else
      match t.dropWhile Char.isDigit with
      | '/' :: _ => some ds
      | _ => none
  else none

/-- `re.search` semantics: try the pattern at each start position, left to right. -/
def searchPat (p : List Char) : List Char → Option (List Char)
  | [] => matchAfterPrefix p []
  | c :: rest =>
    match matchAfterPrefix p (c :: rest) with
    | some ds => some ds
    | none => searchPat p rest

/-- main.py lines 58-63: on a match return the embed URL built from the captured
id, otherwise `None`. -/
def convert_scribd_link (url : String) : Option String :=
  match searchPat docPrefix.data url.data with
  | some ds => some ("https://www.scribd.com/embeds/" ++ String.mk ds ++ "/content")
  | none => none

/-- main.py line 193: `re.search(r'embeds/(\d+)/', embed_url).group(1)` and
line 194 `f"scribd_doc_{doc_id}.pdf"`.  `none` models the `AttributeError` the
source raises when the search fails. -/
def fileName (embed_url : String) : Option String :=
  match searchPat "embeds/".data embed_url.data with
  | some ds => some ("scribd_doc_" ++ String.mk ds ++ ".pdf")
  | none => none

/-- main.py lines 179-184: `generate_pdf` is called iff `embed_url` is truthy
(a non-`None`, nonempty string). -/
def generatePdfInvoked (url : String) : Bool :=
  match convert_scribd_link url with
  | some e => !e.isEmpty
  | none => false

/-! ### Lemmas about the matcher -/

theorem isPrefixOf_append_self (p t : List Char) : p.isPrefixOf (p ++ t) = true := by
  induction p with
  | nil => simp [List.isPrefixOf]
  | cons a as ih => simp [List.isPrefixOf, ih]

theorem takeWhile_digits_append (ds r : List Char) (h : ∀ c ∈ ds, c.isDigit = true) :
    (ds ++ '/' :: r).takeWhile Char.isDigit = ds ∧
      (ds ++ '/' :: r).dropWhile Char.isDigit = '/' :: r := by
  induction ds with
  | nil =>
    constructor
    · simp [List.takeWhile]
    · simp [List.dropWhile]
  | cons d ds ih =>
    have hd : d.isDigit = true := h d (by simp)
    have ih' := ih (fun c hc => h c (by simp [hc]))
    constructor
    · simp [List.takeWhile, hd, ih'.1]
    · simp [List.dropWhile, hd, ih'.2]

theorem matchAfterPrefix_exact (p ds r : List Char) (hne : ds ≠ [])
    (hdig : ∀ c ∈ ds, c.isDigit = true) :
    matchAfterPrefix p (p ++ (ds ++ '/' :: r)) = some ds := by
  have hpre := isPrefixOf_append_self p (ds ++ '/' :: r)
  have hdrop : (p ++ (ds ++ '/' :: r)).drop p.length = ds ++ '/' :: r :=
    List.drop_left p (ds ++ '/' :: r)
  have htw := takeWhile_digits_append ds r hdig
  have hemp : ds.isEmpty = false := by
    cases ds with
    | nil => exact absurd rfl hne
    | cons a as => rfl
  simp only [matchAfterPrefix, hpre, if_true, hdrop, htw.1, htw.2, hemp]
  rfl

theorem searchPat_of_match (p s : List Char) (ds : List Char)
    (h : matchAfterPrefix p s = some ds) : searchPat p s = some ds := by
  cases s with
  | nil => simpa [searchPat] using h
  | cons c rest => simp [searchPat, h]

theorem searchPat_first (p : List Char) (i : Nat) (ds : List Char) :
    ∀ s : List Char, matchAfterPrefix p (s.drop i) = some ds →
      (∀ j, j < i → matchAfterPrefix p (s.drop j) = none) →
      searchPat p s = some ds := by
  induction i with
  | zero =>
    intro s h1 _
    exact searchPat_of_match p s ds (by simpa using h1)
  | succ i ih =>
    intro s h1 h2
    cases s with
    | nil =>
      have h0 := h2 0 (Nat.succ_pos i)
      simp at h0
      simp at h1
      rw [h1] at h0
      exact absurd h0 (by simp)
    | cons c rest =>
      have h0 := h2 0 (Nat.succ_pos i)
      simp only [List.drop_zero] at h0
      have hrec := ih rest (by simpa using h1)
        (fun j hj => by simpa using h2 (j + 1) (Nat.succ_lt_succ hj))
      simp [searchPat, h0, hrec]

theorem searchPat_none (p : List Char) :
    ∀ s : List Char, (∀ i, matchAfterPrefix p (s.drop i) = none) →
      searchPat p s = none := by
  intro s
  induction s with
  | nil =>
    intro h
    simpa [searchPat] using h 0
  | cons c rest ih =>
    intro h
    have h0 := h 0
    simp only [List.drop_zero] at h0
    have hrec := ih (fun i => by simpa using h (i + 1))
    simp [searchPat, h0, hrec]

/-- If no character of `pre` equals the head of the (nonempty) pattern, the scan
skips over `pre` entirely. -/
theorem searchPat_skip (ph : Char) (pt : List Char) :
    ∀ pre s : List Char, (∀ c ∈ pre, c ≠ ph) →
      searchPat (ph :: pt) (pre ++ s) = searchPat (ph :: pt) s := by
  intro pre
  induction pre with
  | nil => intro s _; rfl
  | cons c pre' ih =>
    intro s h
    have hc : c ≠ ph := h c (by simp)
    have hbeq : (ph == c) = false := by
      cases hb : ph == c with
      | false => rfl
      | true => exact absurd (eq_of_beq hb).symm hc
    have hmatch : matchAfterPrefix (ph :: pt) (c :: (pre' ++ s)) = none := by
      simp [matchAfterPrefix, List.isPrefixOf, hbeq]
    simp [searchPat, hmatch, ih s (fun c' hc' => h c' (by simp [hc']))]

theorem mk_data_eq (s : String) : String.mk s.data = s := rfl

theorem convert_eq_of_search (url : String) (ds : List Char)
    (hs : searchPat docPrefix.data url.data = some ds) :
    convert_scribd_link url =
      some ("https://www.scribd.com/embeds/" ++ String.mk ds ++ "/content") := by
  unfold convert_scribd_link
  rw [hs]

theorem convert_eq_none_of_search (url : String)
    (hs : searchPat docPrefix.data url.data = none) :
    convert_scribd_link url = none := by
  unfold convert_scribd_link
  rw [hs]

theorem fileName_eq_of_search (embed_url : String) (ds : List Char)
    (hs : searchPat "embeds/".data embed_url.data = some ds) :
    fileName embed_url = some ("scribd_doc_" ++ String.mk ds ++ ".pdf") := by
  unfold fileName
  rw [hs]

/-! ### Claims about the URL normalizer and filename derivation -/

/-- Claim C1 (amended): the normalizer's canonical form holds only for host
`www.scribd.com`, which the regex hard-codes.  For every input of the form
`https://www.scribd.com/document/<digits>/...`, `convert_scribd_link` returns
`https://www.scribd.com/embeds/<digits>/content`; in particular the input
`https://www.scribd.com/document/42/abc` yields
`https://www.scribd.com/embeds/42/content`. -/
theorem convert_scribd_link_canonical :
    (∀ ds rest : String, ds ≠ "" → (∀ c ∈ ds.data, c.isDigit = true) →
      convert_scribd_link ("https://www.scribd.com/document/" ++ ds ++ "/" ++ rest) =
        some ("https://www.scribd.com/embeds/" ++ ds ++ "/content")) ∧
    convert_scribd_link "https://www.scribd.com/document/42/abc" =
      some "https://www.scribd.com/embeds/42/content" := by
  constructor
  · intro ds rest hne hdig
    have hne' : ds.data ≠ [] := by
      intro h
      exact hne (by rw [← mk_data_eq ds, h])
    have hdata : ("https://www.scribd.com/document/" ++ ds ++ "/" ++ rest).data
        = docPrefix.data ++ (ds.data ++ '/' :: rest.data) := by
      simp [String.data_append, docPrefix, List.append_assoc]
    have hm := matchAfterPrefix_exact docPrefix.data ds.data rest.data hne' hdig
    have hs : searchPat docPrefix.data
        ("https://www.scribd.com/document/" ++ ds ++ "/" ++ rest).data = some ds.data := by
      rw [hdata]; exact searchPat_of_match _ _ _ hm
    rw [convert_eq_of_search _ _ hs, mk_data_eq]
  · rfl

/-- Claim C1, counterexample to the claim as stated: for a host other than
`www.scribd.com` the claimed canonical form is not returned — the function
returns `None`. -/
theorem convert_scribd_link_other_host :
    convert_scribd_link "https://example.com/document/42/abc" = none ∧
    convert_scribd_link "https://example.com/document/42/abc" ≠
      some "https://example.com/embeds/42/content" := by
  refine ⟨rfl, ?_⟩
  intro h
  rw [show convert_scribd_link "https://example.com/document/42/abc" = none from rfl] at h
  exact Option.noConfusion h

/-- Claim C1, witness: the amended general statement applied at a concrete input. -/
theorem convert_scribd_link_canonical_witness :
    convert_scribd_link ("https://www.scribd.com/document/" ++ "7" ++ "/" ++ "x") =
      some ("https://www.scribd.com/embeds/" ++ "7" ++ "/content") :=
  convert_scribd_link_canonical.1 "7" "x" (by decide) (by decide)

/-- Claim C2: an input on which the pattern matches at no position yields `None`,
and the click handler then never invokes `generate_pdf` (no browser session is
opened on that path). -/
theorem convert_scribd_link_reject (url : String)
    (h : ∀ i, i ≤ url.data.length →
      matchAfterPrefix docPrefix.data (url.data.drop i) = none) :
    convert_scribd_link url = none ∧ generatePdfInvoked url = false := by
  have hnil : matchAfterPrefix docPrefix.data [] = none := rfl
  have hall : ∀ i, matchAfterPrefix docPrefix.data (url.data.drop i) = none := by
    intro i
    by_cases hi : i ≤ url.data.length
    · exact h i hi
    · rw [List.drop_eq_nil_of_le (Nat.le_of_lt (Nat.lt_of_not_le hi))]
      exact hnil
  have hs := searchPat_none docPrefix.data url.data hall
  have hc := convert_eq_none_of_search url hs
  refine ⟨hc, ?_⟩
  unfold generatePdfInvoked
  rw [hc]

/-- Claim C2, witness: a concrete non-matching input. -/
theorem convert_scribd_link_reject_witness :
    convert_scribd_link "hello" = none ∧ generatePdfInvoked "hello" = false :=
  convert_scribd_link_reject "hello" (by decide)

/-- Claim C10: the pattern is searched anywhere inside the input (not anchored):
if the first position at which the regex matches is `i` with digit group `ds`,
the embed URL is built from `ds`; and an input ending at the digits with no
trailing slash is rejected. -/
theorem convert_scribd_link_substring (url : String) (i : Nat) (ds : List Char)
    (h1 : matchAfterPrefix docPrefix.data (url.data.drop i) = some ds)
    (h2 : ∀ j, j < i → matchAfterPrefix docPrefix.data (url.data.drop j) = none) :
    convert_scribd_link url =
      some ("https://www.scribd.com/embeds/" ++ String.mk ds ++ "/content") ∧
    convert_scribd_link "https://www.scribd.com/document/42" = none := by
  constructor
  · exact convert_eq_of_search url ds (searchPat_first docPrefix.data i ds url.data h1 h2)
  · rfl

/-- Claim C10, witness: a match strictly inside the input, with junk before and
after, is found at the first matching position. -/
theorem convert_scribd_link_substring_witness :
    convert_scribd_link "xy https://www.scribd.com/document/7/z" =
      some ("https://www.scribd.com/embeds/" ++ String.mk ['7'] ++ "/content") ∧
    convert_scribd_link "https://www.scribd.com/document/42" = none :=
  convert_scribd_link_substring "xy https://www.scribd.com/document/7/z" 3 ['7']
    (by decide) (by decide)

/-- Claim C9: end-to-end naming: a canonical embed URL for id `<digits>` yields
suggested filename `scribd_doc_<digits>.pdf`, and the concrete input
`https://www.scribd.com/document/99887766/Sample` yields embed URL
`https://www.scribd.com/embeds/99887766/content` and filename
`scribd_doc_99887766.pdf`. -/
theorem embed_filename :
    (∀ ds : String, ds ≠ "" → (∀ c ∈ ds.data, c.isDigit = true) →
      fileName ("https://www.scribd.com/embeds/" ++ ds ++ "/content") =
        some ("scribd_doc_" ++ ds ++ ".pdf")) ∧
    convert_scribd_link "https://www.scribd.com/document/99887766/Sample" =
      some "https://www.scribd.com/embeds/99887766/content" ∧
    fileName "https://www.scribd.com/embeds/99887766/content" =
      some "scribd_doc_99887766.pdf" := by
  refine ⟨?_, rfl, rfl⟩
  intro ds hne hdig
  have hne' : ds.data ≠ [] := by
    intro h
    exact hne (by rw [← mk_data_eq ds, h])
  have hsplit : ("https://www.scribd.com/embeds/" : String).data
      = "https://www.scribd.com/".data ++ "embeds/".data := rfl
  have hdata : ("https://www.scribd.com/embeds/" ++ ds ++ "/content").data
      = "https://www.scribd.com/".data ++
          ("embeds/".data ++ (ds.data ++ '/' :: "content".data)) := by
    rw [String.data_append, String.data_append, hsplit]
    rw [show ("/content" : String).data = '/' :: "content".data from rfl]
    simp [List.append_assoc]
  have hcons : ("embeds/" : String).data = 'e' :: "mbeds/".data := rfl
  have hm := matchAfterPrefix_exact "embeds/".data ds.data "content".data hne' hdig
  have hs : searchPat "embeds/".data
      ("https://www.scribd.com/embeds/" ++ ds ++ "/content").data = some ds.data := by
    rw [hdata, hcons]
    rw [searchPat_skip 'e' "mbeds/".data "https://www.scribd.com/".data _ (by decide)]
    rw [← hcons]
    exact searchPat_of_match _ _ _ hm
  rw [fileName_eq_of_search _ _ hs, mk_data_eq]

/-- Claim C9, witness: the general filename statement applied at a concrete id. -/
theorem embed_filename_witness :
    fileName ("https://www.scribd.com/embeds/" ++ "5" ++ "/content") =
      some ("scribd_doc_" ++ "5" ++ ".pdf") :=
  embed_filename.1 "5" (by decide) (by decide)

/-! ### Execution model of `generate_pdf` (main.py lines 85-166)

The environment records the outcomes of the external interactions: whether
`setup_driver` produced a driver (line 87 `if not driver: return None`; a
driver-constructor exception likewise creates no session), whether `driver.get`
raised (line 93), how many `[class*='page']` elements were found (line 98),
whether `execute_script` raised at some scroll index (line 105), whether the
cleanup script raised (line 150), and the CDP `Page.printToPDF` response
(lines 154-160).  Every exception inside the `try` block is caught by
`except Exception` (line 162, returning `None`), and the `finally` block
(line 166) runs `driver.quit()` on every such path. -/

/-- Decoded contents of the CDP response dict: no `data` key (`KeyError`),
an undecodable `data` string (`binascii.Error`), or a valid base64 encoding of
the byte list `bs` (base64 decoding is a stdlib call, modelled by its result;
`encoded []` is the empty payload, which `b64decode` maps to `b''`). -/
inductive Payload where
  | noDataKey : Payload
  | badEncoding : Payload
  | encoded : List Nat → Payload
deriving DecidableEq

/-- Outcome of `driver.execute_cdp_cmd("Page.printToPDF", ...)`: the protocol
call itself raised, or it returned a response dict. -/
inductive PrintResp where
  | protoError : PrintResp
  | resp : Payload → PrintResp
deriving DecidableEq

/-- The parameter dict passed to `Page.printToPDF` (main.py lines 154-158);
the source dict has exactly these six keys. -/
structure PrintParams where
  printBackground : Bool
  preferCSSPageSize : Bool
  marginTop : Nat
  marginBottom : Nat
  marginLeft : Nat
  marginRight : Nat
deriving DecidableEq

/-- The literal parameters of main.py lines 155-157. -/
def printToPDFParams : PrintParams := ⟨true, true, 0, 0, 0, 0⟩

/-- Session-visible events emitted during one `generate_pdf` call. -/
inductive Ev where
  | sessionOpen : Ev
  | navigate : Ev
  | progressInit : Ev
  | progress : ℚ → Ev
  | cleanup : Ev
  | printCall : PrintParams → Ev
  | quit : Ev
deriving DecidableEq

/-- External-world outcomes for one `generate_pdf` invocation. -/
structure Env where
  driverOk : Bool
  loadOk : Bool
  pageCount : Nat
  scrollFail : Option Nat
  sanitizeOk : Bool
  printResp : PrintResp

/-- main.py line 108: `min((index + 1) / total_pages, 1.0)`. -/
def progressVal (n i : Nat) : ℚ := min (((i : ℚ) + 1) / (n : ℚ)) 1

/-- Number of loop iterations completed before a raise (the raise at index `f`
happens in `execute_script`, before that index's progress update). -/
def scrollCut (n : Nat) : Option Nat → Nat
  | none => n
  | some f => min f n

/-- Whether the scroll loop raised. -/
def scrollFailed (n : Nat) : Option Nat → Bool
  | none => false
  | some f => decide (f < n)

/-- Progress events of the scroll loop (main.py lines 104-108): one update per
completed iteration, guarded by `if total_pages > 0`. -/
def scrollEvents (n : Nat) (fa : Option Nat) : List Ev :=
  (List.range (scrollCut n fa)).filterMap
    (fun i => if 0 < n then some (Ev.progress (progressVal n i)) else none)

/-- The `try` block of main.py lines 90-164: result and emitted events.
All exceptions are converted to `None` by the `except` clause. -/
def tryBody (e : Env) : Option (List Nat) × List Ev :=
  if e.loadOk then
    let sc := Ev.navigate :: Ev.progressInit :: scrollEvents e.pageCount e.scrollFail
    if scrollFailed e.pageCount e.scrollFail then (none, sc)
    else if e.sanitizeOk then
      let base := sc ++ [Ev.cleanup, Ev.printCall printToPDFParams]
      match e.printResp with
      | .protoError => (none, base)
      | .resp .noDataKey => (none, base)
      | .resp .badEncoding => (none, base)
      | .resp (.encoded bs) => (some bs, base)
    else (none, sc)
  else (none, [Ev.navigate])

/-- main.py lines 85-166: no session unless `setup_driver` yields a driver;
otherwise the `try` body runs and `finally: driver.quit()` appends the release. -/
def generate_pdf (e : Env) : Option (List Nat) × List Ev :=
  if e.driverOk then
    let r := tryBody e
    (r.1, Ev.sessionOpen :: r.2 ++ [Ev.quit])
  else (none, [])

/-- main.py line 186: `if pdf_bytes:` — Python truthiness of the returned value. -/
def offersDownload : Option (List Nat) → Bool
  | some bs => !bs.isEmpty
  | none => false

def isQuit : Ev → Bool
  | .quit => true
  | _ => false

/-- The fractional progress updates contained in a trace, in order. -/
def progressOfTrace (tr : List Ev) : List ℚ :=
  tr.filterMap (fun ev =>
    match ev with
    | .progress q => some q
    | _ => none)

/-! ### Lemmas about the execution model -/

theorem mem_scrollEvents (n : Nat) (fa : Option Nat) (a : Ev)
    (h : a ∈ scrollEvents n fa) : ∃ q, a = Ev.progress q := by
  simp only [scrollEvents, List.mem_filterMap] at h
  obtain ⟨i, _, hi⟩ := h
  by_cases h0 : 0 < n
  · simp [h0] at hi
    exact ⟨progressVal n i, hi.symm⟩
  · simp [h0] at hi

theorem countP_isQuit_scrollEvents (n : Nat) (fa : Option Nat) :
    (scrollEvents n fa).countP isQuit = 0 := by
  refine List.countP_eq_zero.mpr ?_
  intro a ha
  obtain ⟨q, rfl⟩ := mem_scrollEvents n fa a ha
  simp [isQuit]

theorem countP_isQuit_tryBody (e : Env) : (tryBody e).2.countP isQuit = 0 := by
  unfold tryBody
  by_cases hl : e.loadOk
  · simp only [hl, if_true]
    by_cases hsf : scrollFailed e.pageCount e.scrollFail
    · simp [hsf, List.countP_cons, countP_isQuit_scrollEvents, isQuit]
    · by_cases hsa : e.sanitizeOk
      · simp only [hsf, hsa, if_true, if_false, Bool.false_eq_true]
        cases e.printResp with
        | protoError =>
          simp [List.countP_cons, List.countP_append, countP_isQuit_scrollEvents, isQuit]
        | resp p =>
          cases p <;>
            simp [List.countP_cons, List.countP_append, countP_isQuit_scrollEvents, isQuit]
      · simp [hsf, hsa, List.countP_cons, countP_isQuit_scrollEvents, isQuit]
  · simp [hl, List.countP_cons, isQuit]

/-- Claim C6: on every path on which a session was created (`setup_driver`
returned a driver), the trace contains exactly one `quit` event — the `finally`
block releases the session exactly once, whatever combination of load, scroll,
sanitize or print outcomes occurred; on the no-driver path no release happens. -/
theorem session_quit_exactly_once (e : Env) :
    (generate_pdf e).2.countP isQuit = if e.driverOk then 1 else 0 := by
  unfold generate_pdf
  by_cases hd : e.driverOk
  · simp [hd, List.countP_cons, List.countP_append, countP_isQuit_tryBody, isQuit]
  · simp [hd]

theorem mem_trace (e : Env) (a : Ev) (h : a ∈ (generate_pdf e).2) :
    a = Ev.sessionOpen ∨ a = Ev.navigate ∨ a = Ev.progressInit ∨
    (∃ q, a = Ev.progress q) ∨ a = Ev.cleanup ∨
    a = Ev.printCall printToPDFParams ∨ a = Ev.quit := by
  unfold generate_pdf at h
  by_cases hd : e.driverOk
  · simp only [hd, if_true] at h
    simp only [List.mem_cons, List.mem_append, List.mem_singleton,
      List.not_mem_nil, or_false] at h
    rcases h with (h | h) | h
    · exact Or.inl h
    · unfold tryBody at h
      by_cases hl : e.loadOk
      · simp only [hl, if_true] at h
        by_cases hsf : scrollFailed e.pageCount e.scrollFail
        · simp only [hsf, if_true] at h
          simp only [List.mem_cons] at h
          rcases h with h | h | h
          · exact Or.inr (Or.inl h)
          · exact Or.inr (Or.inr (Or.inl h))
          · exact Or.inr (Or.inr (Or.inr (Or.inl (mem_scrollEvents _ _ _ h))))
        · by_cases hsa : e.sanitizeOk
          · simp only [hsf, hsa, if_true, if_false, Bool.false_eq_true] at h
            have hbase : a ∈ (Ev.navigate :: Ev.progressInit ::
                scrollEvents e.pageCount e.scrollFail) ++
                  [Ev.cleanup, Ev.printCall printToPDFParams] := by
              cases hp : e.printResp with
              | protoError => rw [hp] at h; exact h
              | resp p => rw [hp] at h; cases p <;> exact h
            simp only [List.mem_append, List.mem_cons, List.mem_singleton,
              List.not_mem_nil, or_false] at hbase
            rcases hbase with (h | h | h) | h | h
            · exact Or.inr (Or.inl h)
            · exact Or.inr (Or.inr (Or.inl h))
            · exact Or.inr (Or.inr (Or.inr (Or.inl (mem_scrollEvents _ _ _ h))))
            · exact Or.inr (Or.inr (Or.inr (Or.inr (Or.inl h))))
            · exact Or.inr (Or.inr (Or.inr (Or.inr (Or.inr (Or.inl h)))))
          · simp only [hsf, hsa, if_false, Bool.false_eq_true] at h
            simp only [List.mem_cons] at h
            rcases h with h | h | h
            · exact Or.inr (Or.inl h)
            · exact Or.inr (Or.inr (Or.inl h))
            · exact Or.inr (Or.inr (Or.inr (Or.inl (mem_scrollEvents _ _ _ h))))
      · simp only [hl, if_false, Bool.false_eq_true] at h
        simp only [List.mem_singleton] at h
        exact Or.inr (Or.inl h)
    · exact Or.inr (Or.inr (Or.inr (Or.inr (Or.inr (Or.inr h)))))
  · simp [hd] at h

/-- Claim C8: every `Page.printToPDF` command issued anywhere in the pipeline
carries exactly the parameters of main.py lines 155-157: background graphics
on, CSS page size preferred, and all four margins zero. -/
theorem print_params (e : Env) (pp : PrintParams)
    (h : Ev.printCall pp ∈ (generate_pdf e).2) :
    pp.printBackground = true ∧ pp.preferCSSPageSize = true ∧
    pp.marginTop = 0 ∧ pp.marginBottom = 0 ∧ pp.marginLeft = 0 ∧ pp.marginRight = 0 := by
  have hpp : pp = printToPDFParams := by
    rcases mem_trace e _ h with h' | h' | h' | ⟨q, h'⟩ | h' | h' | h' <;>
      first
        | exact Ev.noConfusion h'
        | exact (Ev.printCall.inj h').symm ▸ rfl
  subst hpp
  exact ⟨rfl, rfl, rfl, rfl, rfl, rfl⟩

/-- Claim C8, witness: on a successful run the print command is issued with the
canonical parameters. -/
theorem print_params_witness :
    (⟨true, true, 0, 0, 0, 0⟩ : PrintParams).printBackground = true ∧
    (⟨true, true, 0, 0, 0, 0⟩ : PrintParams).preferCSSPageSize = true ∧
    (⟨true, true, 0, 0, 0, 0⟩ : PrintParams).marginTop = 0 ∧
    (⟨true, true, 0, 0, 0, 0⟩ : PrintParams).marginBottom = 0 ∧
    (⟨true, true, 0, 0, 0, 0⟩ : PrintParams).marginLeft = 0 ∧
    (⟨true, true, 0, 0, 0, 0⟩ : PrintParams).marginRight = 0 :=
  print_params ⟨true, true, 0, none, true, PrintResp.resp (Payload.encoded [1])⟩
    ⟨true, true, 0, 0, 0, 0⟩ (by decide)

theorem progressVal_mono (n : Nat) {i j : Nat} (h : i ≤ j) :
    progressVal n i ≤ progressVal n j := by
  unfold progressVal
  rcases Nat.eq_zero_or_pos n with h0 | h0
  · subst h0
    simp
  · have hc : (0 : ℚ) < (n : ℚ) := by exact_mod_cast h0
    apply min_le_min _ le_rfl
    refine (div_le_div_iff_of_pos_right hc).mpr ?_
    have : (i : ℚ) ≤ (j : ℚ) := by exact_mod_cast h
    linarith

theorem progressVal_le_one (n i : Nat) : progressVal n i ≤ 1 := min_le_right _ _

theorem progressVal_last (n : Nat) (h0 : 0 < n) : progressVal n (n - 1) = 1 := by
  unfold progressVal
  have h1 : n - 1 + 1 = n := Nat.succ_pred_eq_of_pos h0
  have hcast : ((n - 1 : Nat) : ℚ) + 1 = (n : ℚ) := by exact_mod_cast h1
  have hne : (n : ℚ) ≠ 0 := by
    have : (0 : ℚ) < (n : ℚ) := by exact_mod_cast h0
    exact ne_of_gt this
  rw [hcast, div_self hne, min_self]

theorem progressOfTrace_map_progress (f : Nat → ℚ) (l : List Nat) :
    progressOfTrace (l.map (fun i => Ev.progress (f i))) = l.map f := by
  induction l with
  | nil => rfl
  | cons a l ih =>
    simp only [List.map_cons, progressOfTrace, List.filterMap_cons] at *
    rw [ih]

theorem progressOfTrace_scrollEvents (n : Nat) :
    progressOfTrace (scrollEvents n none) = (List.range n).map (progressVal n) := by
  by_cases h0 : 0 < n
  · have hse : scrollEvents n none =
        (List.range n).map (fun i => Ev.progress (progressVal n i)) := by
      simp only [scrollEvents, scrollCut, h0, if_true]
      rw [show (fun i => some (Ev.progress (progressVal n i))) =
        some ∘ (fun i => Ev.progress (progressVal n i)) from rfl]
      exact congrFun (List.filterMap_eq_map _) _
    rw [hse, progressOfTrace_map_progress]
  · have hn : n = 0 := Nat.eq_zero_of_not_pos h0
    subst hn
    rfl

theorem progressOfTrace_generate (e : Env) (hd : e.driverOk = true)
    (hl : e.loadOk = true) (hsf : e.scrollFail = none) :
    progressOfTrace (generate_pdf e).2 =
      (List.range e.pageCount).map (progressVal e.pageCount) := by
  have hnofail : scrollFailed e.pageCount e.scrollFail = false := by
    rw [hsf]; rfl
  unfold generate_pdf tryBody
  rw [hd, hl, hnofail, hsf]
  simp only [if_true, Bool.false_eq_true, if_false]
  by_cases hsa : e.sanitizeOk
  · simp only [hsa, if_true]
    have hbase : ∀ r : Option (List Nat),
        progressOfTrace (Ev.sessionOpen :: ((Ev.navigate :: Ev.progressInit ::
            scrollEvents e.pageCount none) ++
            [Ev.cleanup, Ev.printCall printToPDFParams]) ++ [Ev.quit]) =
          (List.range e.pageCount).map (progressVal e.pageCount) := by
      intro _
      simp only [progressOfTrace, List.filterMap_append, List.filterMap_cons]
      rw [← progressOfTrace_scrollEvents e.pageCount]
      simp [progressOfTrace]
    cases e.printResp with
    | protoError => exact hbase none
    | resp p => cases p <;> exact hbase none
  · simp only [hsa, Bool.false_eq_true, if_false]
    simp only [progressOfTrace, List.filterMap_append, List.filterMap_cons]
    rw [← progressOfTrace_scrollEvents e.pageCount]
    simp [progressOfTrace]

/-- Claim C3: on a run that completes the scroll loop, the emitted progress
sequence is `(index+1)/total` clamped to at most `1` for `index = 0..total-1`:
it is non-decreasing, every value is at most `1`, it ends at exactly `1` when
`total > 0`, and when `total = 0` the scroll step emits no progress update
beyond the initial state. -/
theorem scroll_progress (e : Env) (hd : e.driverOk = true)
    (hl : e.loadOk = true) (hsf : e.scrollFail = none) :
    progressOfTrace (generate_pdf e).2 =
      (List.range e.pageCount).map (progressVal e.pageCount) ∧
    (progressOfTrace (generate_pdf e).2).Pairwise (· ≤ ·) ∧
    (∀ q ∈ progressOfTrace (generate_pdf e).2, q ≤ 1) ∧
    (0 < e.pageCount → (progressOfTrace (generate_pdf e).2).getLast? = some 1) ∧
    (e.pageCount = 0 → progressOfTrace (generate_pdf e).2 = []) := by
  have htr := progressOfTrace_generate e hd hl hsf
  refine ⟨htr, ?_, ?_, ?_, ?_⟩
  · rw [htr, List.pairwise_map]
    exact (List.pairwise_lt_range e.pageCount).imp
      (fun hij => progressVal_mono e.pageCount (Nat.le_of_lt hij))
  · rw [htr]
    intro q hq
    obtain ⟨i, _, rfl⟩ := List.mem_map.mp hq
    exact progressVal_le_one e.pageCount i
  · intro h0
    rw [htr, List.getLast?_eq_getElem?]
    have hlen : ((List.range e.pageCount).map (progressVal e.pageCount)).length
        = e.pageCount := by simp
    rw [hlen, List.getElem?_map, List.getElem?_range (Nat.sub_lt h0 Nat.one_pos)]
    simp [progressVal_last e.pageCount h0]
  · intro h0
    rw [htr, h0]
    rfl

/-- Claim C3, witness: three pages, successful scroll. -/
theorem scroll_progress_witness :
    progressOfTrace (generate_pdf
        ⟨true, true, 3, none, true, PrintResp.resp (Payload.encoded [1])⟩).2 =
      (List.range 3).map (progressVal 3) ∧
    (progressOfTrace (generate_pdf
        ⟨true, true, 3, none, true, PrintResp.resp (Payload.encoded [1])⟩).2).Pairwise (· ≤ ·) ∧
    (∀ q ∈ progressOfTrace (generate_pdf
        ⟨true, true, 3, none, true, PrintResp.resp (Payload.encoded [1])⟩).2, q ≤ 1) ∧
    (0 < (3 : Nat) → (progressOfTrace (generate_pdf
        ⟨true, true, 3, none, true, PrintResp.resp (Payload.encoded [1])⟩).2).getLast? =
          some 1) ∧
    ((3 : Nat) = 0 → progressOfTrace (generate_pdf
        ⟨true, true, 3, none, true, PrintResp.resp (Payload.encoded [1])⟩).2 = []) :=
  scroll_progress ⟨true, true, 3, none, true, PrintResp.resp (Payload.encoded [1])⟩
    rfl rfl rfl

/-- Claim C7, counterexample to the claim as stated: an *empty* protocol payload
(the `data` field decodes to zero bytes) makes `generate_pdf` return the empty
byte buffer `b''`, not the failure value `None` — `base64.b64decode('')`
succeeds. -/
theorem generate_pdf_empty_payload :
    (generate_pdf ⟨true, true, 0, none, true,
        PrintResp.resp (Payload.encoded [])⟩).1 = some [] ∧
    (some ([] : List Nat) ≠ (none : Option (List Nat))) := by
  refine ⟨rfl, ?_⟩
  intro h
  exact Option.noConfusion h

/-- Claim C7 (amended): a protocol error, a missing `data` key, or an
undecodable payload all make `generate_pdf` yield the failure value `None`
(via the `except` path); an *empty* payload instead yields the empty byte
buffer, which the caller's truthiness check (`if pdf_bytes:`) then treats as a
failure, so the empty buffer is never offered as a successful result. -/
theorem emitter_payload (e : Env) :
    ((e.printResp = PrintResp.protoError ∨
        e.printResp = PrintResp.resp Payload.noDataKey ∨
        e.printResp = PrintResp.resp Payload.badEncoding) →
      (generate_pdf e).1 = none) ∧
    ((e.driverOk = true ∧ e.loadOk = true ∧
        scrollFailed e.pageCount e.scrollFail = false ∧ e.sanitizeOk = true ∧
        e.printResp = PrintResp.resp (Payload.encoded [])) →
      (generate_pdf e).1 = some []) ∧
    offersDownload (some ([] : List Nat)) = false := by
  refine ⟨?_, ?_, rfl⟩
  · intro hbad
    unfold generate_pdf tryBody
    by_cases hd : e.driverOk
    · simp only [hd, if_true]
      by_cases hl : e.loadOk
      · simp only [hl, if_true]
        by_cases hsf : scrollFailed e.pageCount e.scrollFail
        · simp [hsf]
        · by_cases hsa : e.sanitizeOk
          · simp only [hsf, hsa, if_true, Bool.false_eq_true, if_false]
            rcases hbad with hb | hb | hb <;> rw [hb]
          · simp [hsf, hsa]
      · simp [hl]
    · simp [hd]
  · rintro ⟨hd, hl, hsf, hsa, hp⟩
    unfold generate_pdf tryBody
    rw [hd, hl, hsf, hsa, hp]
    simp

/-- Claim C7, witness: the amended statement applied to a protocol error. -/
theorem emitter_payload_witness :
    (generate_pdf ⟨true, true, 0, none, true, PrintResp.protoError⟩).1 = none :=
  (emitter_payload ⟨true, true, 0, none, true, PrintResp.protoError⟩).1 (Or.inl rfl)

/-! ### DOM model and the cleanup script (main.py lines 114-150)

A DOM element carries its tag, `id` attribute, `class` attribute value, its
own text, and child elements in document order; an element's `textContent` is
its own text followed by its children's, in order.  The document is the fixed
`html`/`head`/`body` skeleton (whose three skeleton elements have no class or
id and are never div/footer, hence never match any cleanup selector) holding
the head and body child forests. -/

inductive Node where
  | mk : (tag idAttr className ownText : String) → (children : List Node) → Node

def Node.tag : Node → String
  | .mk t _ _ _ _ => t

def Node.idAttr : Node → String
  | .mk _ i _ _ _ => i

def Node.className : Node → String
  | .mk _ _ c _ _ => c

def Node.children : Node → List Node
  | .mk _ _ _ _ ch => ch

mutual

/-- `textContent` of an element, as a character list. -/
def Node.textData : Node → List Char
  | .mk _ _ _ tx ch => tx.data ++ textDataList ch

/-- Concatenated `textContent` of a forest, in document order. -/
def textDataList : List Node → List Char
  | [] => []
  | n :: ns => n.textData ++ textDataList ns

end

mutual

/-- `q` holds of the element and of every descendant (each evaluated on the
node as it stands in the tree). -/
def Node.allB (q : Node → Bool) : Node → Bool
  | .mk t i c tx ch => q (.mk t i c tx ch) && forestAllB q ch

def forestAllB (q : Node → Bool) : List Node → Bool
  | [] => true
  | n :: ns => n.allB q && forestAllB q ns

end

/-- Split a character list on spaces (accumulator holds the current token,
reversed). -/
def tokensAux : List Char → List Char → List (List Char)
  | acc, [] => [acc.reverse]
  | acc, ' ' :: rest => acc.reverse :: tokensAux [] rest
  | acc, c :: rest => tokensAux (c :: acc) rest

/-- CSS class-token membership: the `class` attribute split on spaces. -/
def hasTok (cls tok : String) : Bool := (tokensAux [] cls.data).contains tok.data

/-- Substring test on character lists. -/
def containsSub : List Char → List Char → Bool
  | pat, [] => pat.isEmpty
  | pat, c :: rest => pat.isPrefixOf (c :: rest) || containsSub pat rest

/-- Selector `.toolbar_top, .toolbar_bottom` (line 116). -/
def isToolbar (n : Node) : Bool :=
  hasTok n.className "toolbar_top" || hasTok n.className "toolbar_bottom"

/-- `getElementsByClassName("document_scroller")` membership (line 119). -/
def isScroller (n : Node) : Bool := hasTok n.className "document_scroller"

/-- Selector `[class*="promo"]` — attribute-value substring match (line 123). -/
def isPromo (n : Node) : Bool := containsSub "promo".data n.className.data

/-- The cookie-banner boilerplate scanned for on line 134. -/
def cookieMarker : String := "This website utilizes technologies such as cookies"

/-- The text-content fallback predicate of lines 133-137: a `div` or `footer`
whose `textContent` includes the marker. -/
def isCookieTarget (n : Node) : Bool :=
  (n.tag == "div" || n.tag == "footer") && containsSub cookieMarker.data n.textData

/-- `querySelectorAll(sel).forEach(el => el.remove())`: the static NodeList is
collected in document order (pre-order), so an element's text is evaluated
before any of its descendants is removed, and removing a matching element
detaches its whole subtree; the net effect on the document is a top-down
filter. -/
def removeForest (p : Node → Bool) : List Node → List Node
  | [] => []
  | .mk t i c tx ch :: ns =>
    if p (.mk t i c tx ch) then removeForest p ns
    else .mk t i c tx (removeForest p ch) :: removeForest p ns

/-- The `document_scroller` loop of lines 119-120 iterates a *live*
`HTMLCollection` with a manual index: resetting an element's class removes it
from the collection, so the loop clears exactly the matches at even positions
of the original document-order match sequence.  `k` counts matches seen so
far; a match is cleared iff `k` is even. -/
def clearForest : Nat → List Node → List Node × Nat
  | k, [] => ([], k)
  | k, .mk t i c tx ch :: ns =>
    if isScroller (.mk t i c tx ch) then
      let c2 := if k % 2 = 0 then "" else c
      let r1 := clearForest (k + 1) ch
      let r2 := clearForest r1.2 ns
      (.mk t i c2 tx r1.1 :: r2.1, r2.2)
    else
      let r1 := clearForest k ch
      let r2 := clearForest r1.2 ns
      (.mk t i c tx r1.1 :: r2.1, r2.2)

/-- `document.getElementById(id)` followed by `.remove()` (lines 126-130):
remove the first element in document order with the given id, if any. -/
def removeFirstId (i : String) : List Node → List Node × Bool
  | [] => ([], false)
  | .mk t nid c tx ch :: ns =>
    if nid == i then (ns, true)
    else
      match removeFirstId i ch with
      | (ch2, true) => (.mk t nid c tx ch2 :: ns, true)
      | (_, false) =>
        let r := removeFirstId i ns
        (.mk t nid c tx ch :: r.1, r.2)

/-- The document: children of `head` and of `body`. -/
structure Doc where
  head : List Node
  body : List Node

def removeDoc (p : Node → Bool) (d : Doc) : Doc :=
  ⟨removeForest p d.head, removeForest p d.body⟩

/-- The scroller loop threads the live collection across the whole document,
head before body. -/
def clearScrollersDoc (d : Doc) : Doc :=
  let r := clearForest 0 d.head
  ⟨r.1, (clearForest r.2 d.body).1⟩

def removeIdDoc (i : String) (d : Doc) : Doc :=
  match removeFirstId i d.head with
  | (h2, true) => ⟨h2, d.body⟩
  | (_, false) => ⟨d.head, (removeFirstId i d.body).1⟩

/-- Lines 116-137 of the cleanup script, in source order: toolbar removal,
scroller class reset, promo removal, the two OneTrust id removals, then the
text-content fallback. -/
def removalPhase (d : Doc) : Doc :=
  removeDoc isCookieTarget
    (removeIdDoc "onetrust-banner-sdk"
      (removeIdDoc "onetrust-consent-sdk"
        (removeDoc isPromo
          (clearScrollersDoc
            (removeDoc isToolbar d)))))

/-- The `textContent` of the injected `<style>` element (lines 140-148). -/
def printCssText : String :=
  "@media print \x7b @page \x7b margin: 0; \x7d body \x7b background-color: white; \x7d .toolbar_top, .toolbar_bottom, .promo_banner, #onetrust-consent-sdk \x7b display: none !important; \x7d \x7d"

/-- `document.createElement('style')` with the print-media override. -/
def styleNode : Node := .mk "style" "" "" printCssText []

/-- The whole cleanup script (lines 114-150): the removal phase followed by
`document.head.appendChild(style)`. -/
def sanitize (d : Doc) : Doc :=
  let d2 := removalPhase d
  ⟨d2.head ++ [styleNode], d2.body⟩

/-- `q` holds of every element of the document. -/
def docAllB (q : Node → Bool) (d : Doc) : Bool :=
  forestAllB q d.head && forestAllB q d.body

def emptyDoc : Doc := ⟨[], []⟩

/-! ### Lemmas about the DOM model -/

theorem containsSub_iff (pat : List Char) :
    ∀ l : List Char, containsSub pat l = true ↔ pat <:+: l := by
  intro l
  induction l with
  | nil =>
    unfold containsSub
    rw [List.infix_nil]
    cases pat with
    | nil => simp
    | cons c cs => simp
  | cons c rest ih =>
    unfold containsSub
    rw [Bool.or_eq_true, List.isPrefixOf_iff_prefix, ih, List.infix_cons_iff]

theorem containsSub_mono (pat a b : List Char) (h : containsSub pat a = true)
    (hab : a <:+: b) : containsSub pat b = true :=
  (containsSub_iff pat b).mpr (((containsSub_iff pat a).mp h).trans hab)

theorem containsSub_mono_false (pat a b : List Char)
    (h : containsSub pat b = false) (hab : a <:+: b) : containsSub pat a = false := by
  cases hc : containsSub pat a with
  | false => rfl
  | true => rw [containsSub_mono pat a b hc hab] at h; exact Bool.noConfusion h

theorem textDataList_cons (n : Node) (ns : List Node) :
    textDataList (n :: ns) = n.textData ++ textDataList ns := by
  cases n
  rfl

/-- A nonempty marker cannot appear in an element's `textContent` unless it
appears in an enclosing forest's concatenated text: each piece is an infix. -/
theorem textData_head_part (n : Node) (ns : List Node) :
    n.textData <:+: textDataList (n :: ns) := by
  rw [textDataList_cons]
  exact (List.prefix_append _ _).isInfix

theorem textDataList_tail_part (n : Node) (ns : List Node) :
    textDataList ns <:+: textDataList (n :: ns) := by
  rw [textDataList_cons]
  exact (List.suffix_append _ _).isInfix

theorem textDataList_children_part (t i c tx : String) (ch : List Node) :
    textDataList ch <:+: (Node.mk t i c tx ch).textData := by
  rw [show (Node.mk t i c tx ch).textData = tx.data ++ textDataList ch from rfl]
  exact (List.suffix_append _ _).isInfix

/-- If the marker does not occur in a forest's text, the text-content fallback
removes nothing from it. -/
theorem removeForest_cookie_of_clean :
    ∀ l : List Node, containsSub cookieMarker.data (textDataList l) = false →
      removeForest isCookieTarget l = l
  | [], _ => by unfold removeForest; rfl
  | .mk t i c tx ch :: ns, h => by
    have hn : containsSub cookieMarker.data (Node.mk t i c tx ch).textData = false :=
      containsSub_mono_false _ _ _ h (textData_head_part _ ns)
    have hch : containsSub cookieMarker.data (textDataList ch) = false :=
      containsSub_mono_false _ _ _ hn (textDataList_children_part t i c tx ch)
    have hns : containsSub cookieMarker.data (textDataList ns) = false :=
      containsSub_mono_false _ _ _ h (textDataList_tail_part _ ns)
    have hp : isCookieTarget (.mk t i c tx ch) = false := by
      simp [isCookieTarget, hn]
    unfold removeForest
    rw [hp]
    simp only [Bool.false_eq_true, if_false]
    rw [removeForest_cookie_of_clean ch hch, removeForest_cookie_of_clean ns hns]

/-- If the marker does not occur in a forest's text, no element of the forest
is a cookie target. -/
theorem forestAllB_cookie_of_clean :
    ∀ l : List Node, containsSub cookieMarker.data (textDataList l) = false →
      forestAllB (fun n => !(isCookieTarget n)) l = true
  | [], _ => by unfold forestAllB; rfl
  | .mk t i c tx ch :: ns, h => by
    have hn : containsSub cookieMarker.data (Node.mk t i c tx ch).textData = false :=
      containsSub_mono_false _ _ _ h (textData_head_part _ ns)
    have hch : containsSub cookieMarker.data (textDataList ch) = false :=
      containsSub_mono_false _ _ _ hn (textDataList_children_part t i c tx ch)
    have hns : containsSub cookieMarker.data (textDataList ns) = false :=
      containsSub_mono_false _ _ _ h (textDataList_tail_part _ ns)
    have hp : isCookieTarget (.mk t i c tx ch) = false := by
      simp [isCookieTarget, hn]
    unfold forestAllB Node.allB
    rw [hp, forestAllB_cookie_of_clean ch hch, forestAllB_cookie_of_clean ns hns]
    rfl

/-- Output of the text-content fallback: no `div`/`footer` whose `textContent`
contains the marker survives.  A surviving element's final text can only differ
from its scan-time text through removals of whole matching subtrees, and a
matching subtree's text is an infix of every ancestor's text, so an ancestor
whose scan-time text lacked the marker keeps its subtree untouched. -/
theorem removeForest_cookie_clean :
    ∀ l : List Node,
      forestAllB (fun n => !(isCookieTarget n)) (removeForest isCookieTarget l) = true
  | [] => by unfold removeForest forestAllB; rfl
  | .mk t i c tx ch :: ns => by
    by_cases hp : isCookieTarget (.mk t i c tx ch)
    · unfold removeForest
      rw [hp]
      simp only [if_true]
      exact removeForest_cookie_clean ns
    · unfold removeForest
      rw [Bool.eq_false_iff.mpr hp]
      simp only [Bool.false_eq_true, if_false]
      unfold forestAllB Node.allB
      rw [removeForest_cookie_clean ch, removeForest_cookie_clean ns]
      have hcp : isCookieTarget (.mk t i c tx (removeForest isCookieTarget ch)) = false := by
        cases hm : containsSub cookieMarker.data (Node.mk t i c tx ch).textData with
        | false =>
          have hch : containsSub cookieMarker.data (textDataList ch) = false :=
            containsSub_mono_false _ _ _ hm (textDataList_children_part t i c tx ch)
          rw [removeForest_cookie_of_clean ch hch]
          exact Bool.eq_false_iff.mpr hp
        | true =>
          have hdv : (t == "div" || t == "footer") = false := by
            have hp' := Bool.eq_false_iff.mpr hp
            simpa [isCookieTarget, Node.tag, hm] using hp'
          simp [isCookieTarget, Node.tag, hdv]
      rw [hcp]
      rfl

theorem forestAllB_append (q : Node → Bool) (a b : List Node) :
    forestAllB q (a ++ b) = (forestAllB q a && forestAllB q b) := by
  induction a with
  | nil => simp [forestAllB]
  | cons n a ih =>
    simp only [List.cons_append, forestAllB, List.append_eq, ih, Bool.and_assoc]

/-- A removal pass leaves a forest unchanged when no element matches. -/
theorem removeForest_of_all (p : Node → Bool) :
    ∀ l : List Node, forestAllB (fun n => !(p n)) l = true → removeForest p l = l
  | [], _ => by unfold removeForest; rfl
  | .mk t i c tx ch :: ns, h => by
    unfold forestAllB Node.allB at h
    rw [Bool.and_eq_true, Bool.and_eq_true] at h
    obtain ⟨⟨hq, hch⟩, hns⟩ := h
    have hp : p (.mk t i c tx ch) = false := by simpa using hq
    unfold removeForest
    rw [hp]
    simp only [Bool.false_eq_true, if_false]
    rw [removeForest_of_all p ch hch, removeForest_of_all p ns hns]

/-- The scroller loop leaves a forest and its counter unchanged when no element
has class `document_scroller`. -/
theorem clearForest_of_none :
    ∀ (k : Nat) (l : List Node), forestAllB (fun n => !(isScroller n)) l = true →
      clearForest k l = (l, k)
  | _, [], _ => by unfold clearForest; rfl
  | k, .mk t i c tx ch :: ns, h => by
    unfold forestAllB Node.allB at h
    rw [Bool.and_eq_true, Bool.and_eq_true] at h
    obtain ⟨⟨hq, hch⟩, hns⟩ := h
    have hsc : isScroller (.mk t i c tx ch) = false := by simpa using hq
    unfold clearForest
    rw [hsc]
    simp only [Bool.false_eq_true, if_false]
    rw [clearForest_of_none k ch hch, clearForest_of_none k ns hns]

/-- `getElementById` finds nothing when no element carries the id. -/
theorem removeFirstId_of_none (i : String) :
    ∀ l : List Node, forestAllB (fun n => !(n.idAttr == i)) l = true →
      removeFirstId i l = (l, false)
  | [], _ => by unfold removeFirstId; rfl
  | .mk t nid c tx ch :: ns, h => by
    unfold forestAllB Node.allB at h
    rw [Bool.and_eq_true, Bool.and_eq_true] at h
    obtain ⟨⟨hq, hch⟩, hns⟩ := h
    have hnid : (nid == i) = false := by simpa [Node.idAttr] using hq
    unfold removeFirstId
    rw [hnid]
    simp only [Bool.false_eq_true, if_false]
    rw [removeFirstId_of_none i ch hch, removeFirstId_of_none i ns hns]

theorem removeDoc_of_all (p : Node → Bool) (d : Doc)
    (h : docAllB (fun n => !(p n)) d = true) : removeDoc p d = d := by
  unfold docAllB at h
  rw [Bool.and_eq_true] at h
  unfold removeDoc
  rw [removeForest_of_all p d.head h.1, removeForest_of_all p d.body h.2]

theorem clearScrollersDoc_of_none (d : Doc)
    (h : docAllB (fun n => !(isScroller n)) d = true) : clearScrollersDoc d = d := by
  unfold docAllB at h
  rw [Bool.and_eq_true] at h
  unfold clearScrollersDoc
  rw [clearForest_of_none 0 d.head h.1]
  simp only [clearForest_of_none 0 d.body h.2]

theorem removeIdDoc_of_none (i : String) (d : Doc)
    (h : docAllB (fun n => !(n.idAttr == i)) d = true) : removeIdDoc i d = d := by
  unfold docAllB at h
  rw [Bool.and_eq_true] at h
  unfold removeIdDoc
  rw [removeFirstId_of_none i d.head h.1, removeFirstId_of_none i d.body h.2]

/-- Claim C5: after one run of the sanitizer, no `div` or `footer` element
anywhere in the document has the cookie boilerplate in its `textContent` —
regardless of the element's class or attributes; in particular every such
element of the input DOM is absent from the output. -/
theorem sanitizer_removes_cookie_text (d : Doc) :
    docAllB (fun n => !(isCookieTarget n)) (sanitize d) = true := by
  have h1 : isCookieTarget (Node.mk "style" "" "" printCssText []) = false := by decide
  have hsty : forestAllB (fun n => !(isCookieTarget n)) [styleNode] = true := by
    simp [forestAllB, Node.allB, styleNode, h1]
  have hh : forestAllB (fun n => !(isCookieTarget n)) (removalPhase d).head = true := by
    unfold removalPhase removeDoc
    exact removeForest_cookie_clean _
  have hb : forestAllB (fun n => !(isCookieTarget n)) (removalPhase d).body = true := by
    unfold removalPhase removeDoc
    exact removeForest_cookie_clean _
  unfold sanitize docAllB
  rw [forestAllB_append, hh, hb, hsty]
  rfl

theorem docAllB_styleDoc (q : Node → Bool)
    (hq : q (Node.mk "style" "" "" printCssText []) = true) :
    docAllB q (Doc.mk [styleNode] []) = true := by
  simp [docAllB, forestAllB, Node.allB, styleNode, hq]

theorem docAllB_emptyDoc (q : Node → Bool) : docAllB q emptyDoc = true := by
  simp [docAllB, forestAllB, emptyDoc]

theorem removalPhase_emptyDoc : removalPhase emptyDoc = emptyDoc := by
  unfold removalPhase
  rw [removeDoc_of_all isToolbar _ (docAllB_emptyDoc _)]
  rw [clearScrollersDoc_of_none _ (docAllB_emptyDoc _)]
  rw [removeDoc_of_all isPromo _ (docAllB_emptyDoc _)]
  rw [removeIdDoc_of_none _ _ (docAllB_emptyDoc _)]
  rw [removeIdDoc_of_none _ _ (docAllB_emptyDoc _)]
  rw [removeDoc_of_all isCookieTarget _ (docAllB_emptyDoc _)]

theorem sanitize_emptyDoc : sanitize emptyDoc = Doc.mk [styleNode] [] := by
  rw [show sanitize emptyDoc =
    Doc.mk ((removalPhase emptyDoc).head ++ [styleNode]) (removalPhase emptyDoc).body
    from rfl]
  rw [removalPhase_emptyDoc]
  rfl

theorem removalPhase_styleDoc :
    removalPhase (Doc.mk [styleNode] []) = Doc.mk [styleNode] [] := by
  unfold removalPhase
  rw [removeDoc_of_all isToolbar _ (docAllB_styleDoc _ (by decide))]
  rw [clearScrollersDoc_of_none _ (docAllB_styleDoc _ (by decide))]
  rw [removeDoc_of_all isPromo _ (docAllB_styleDoc _ (by decide))]
  rw [removeIdDoc_of_none _ _ (docAllB_styleDoc _ (by decide))]
  rw [removeIdDoc_of_none _ _ (docAllB_styleDoc _ (by decide))]
  rw [removeDoc_of_all isCookieTarget _ (docAllB_styleDoc _ (by decide))]

theorem sanitize_styleDoc :
    sanitize (Doc.mk [styleNode] []) = Doc.mk [styleNode, styleNode] [] := by
  rw [show sanitize (Doc.mk [styleNode] []) =
    Doc.mk ((removalPhase (Doc.mk [styleNode] [])).head ++ [styleNode])
      (removalPhase (Doc.mk [styleNode] [])).body from rfl]
  rw [removalPhase_styleDoc]
  rfl

/-- Claim C4, counterexample to the claim as stated: the sanitizer is not
idempotent — on the empty document one application injects one print-media
style element into `head`, a second application injects another, so the two
results differ. -/
theorem sanitize_not_idempotent :
    sanitize (sanitize emptyDoc) ≠ sanitize emptyDoc := by
  rw [sanitize_emptyDoc, sanitize_styleDoc]
  intro h
  have hlen := congrArg (fun x => x.head.length) h
  simp at hlen

/-- Claim C4 (amended): the sanitizer is never idempotent — a second
application always appends one more copy of the injected print-media style
element, so the twice-sanitized DOM differs from the once-sanitized one.  When
the once-sanitized document is a fixed point of each removal/reset rule (no
residual toolbar, `document_scroller`, promo, consent-id, or cookie-text
match — residues are possible: the live-collection scroller loop skips every
other match, `getElementById` removes only the first element with a duplicated
id, and removals can splice the marker together out of surviving text), the
second application changes nothing else: it yields exactly the once-sanitized
DOM with one extra style element appended to `head`. -/
theorem sanitize_twice (d : Doc)
    (h1 : docAllB (fun n => !(isToolbar n)) (sanitize d) = true)
    (h2 : docAllB (fun n => !(isScroller n)) (sanitize d) = true)
    (h3 : docAllB (fun n => !(isPromo n)) (sanitize d) = true)
    (h4 : docAllB (fun n => !(n.idAttr == "onetrust-consent-sdk")) (sanitize d) = true)
    (h5 : docAllB (fun n => !(n.idAttr == "onetrust-banner-sdk")) (sanitize d) = true)
    (h6 : docAllB (fun n => !(isCookieTarget n)) (sanitize d) = true) :
    sanitize (sanitize d) =
      Doc.mk ((sanitize d).head ++ [styleNode]) (sanitize d).body ∧
    sanitize (sanitize d) ≠ sanitize d := by
  have hfix : removalPhase (sanitize d) = sanitize d := by
    unfold removalPhase
    rw [removeDoc_of_all isToolbar _ h1]
    rw [clearScrollersDoc_of_none _ h2]
    rw [removeDoc_of_all isPromo _ h3]
    rw [removeIdDoc_of_none _ _ h4]
    rw [removeIdDoc_of_none _ _ h5]
    rw [removeDoc_of_all isCookieTarget _ h6]
  have hmain : sanitize (sanitize d) =
      Doc.mk ((sanitize d).head ++ [styleNode]) (sanitize d).body := by
    rw [show sanitize (sanitize d) =
      Doc.mk ((removalPhase (sanitize d)).head ++ [styleNode])
        (removalPhase (sanitize d)).body from rfl]
    rw [hfix]
  refine ⟨hmain, ?_⟩
  intro heq
  rw [hmain] at heq
  have hlen := congrArg (fun x => x.head.length) heq
  simp at hlen

/-- Claim C4, witness: the amended statement applied to the empty document. -/
theorem sanitize_twice_witness :
    sanitize (sanitize emptyDoc) =
      Doc.mk ((sanitize emptyDoc).head ++ [styleNode]) (sanitize emptyDoc).body ∧
    sanitize (sanitize emptyDoc) ≠ sanitize emptyDoc :=
  sanitize_twice emptyDoc
    (by rw [sanitize_emptyDoc]; exact docAllB_styleDoc _ (by decide))
    (by rw [sanitize_emptyDoc]; exact docAllB_styleDoc _ (by decide))
    (by rw [sanitize_emptyDoc]; exact docAllB_styleDoc _ (by decide))
    (by rw [sanitize_emptyDoc]; exact docAllB_styleDoc _ (by decide))
    (by rw [sanitize_emptyDoc]; exact docAllB_styleDoc _ (by decide))
    (by rw [sanitize_emptyDoc]; exact docAllB_styleDoc _ (by decide))
